import Mathlib

/-!
Verification of the ffreplex stream-normalization pipeline.

This file gives a shallow embedding of the three Python modules of the
repository (`ffreplex/ffclient.py`, `ffreplex/__init__.py`,
`ffreplex/filewalk.py`) as executable Lean definitions, and proves or
refutes the behavioural claims about them.

Modelling conventions:
- Python dictionaries with a fixed insertion order are modelled as
  association lists (`List (key × value)`).
- A Python `TypedDict` field that may be absent is an `Option`; a field
  that may be absent *or* present with value `None` is an
  `Option (Option _)` (`none` = key absent, `some none` = key present
  holding `None`).
- Functions that can raise (`KeyError`, `StopIteration`, explicit
  `raise`) return `Option`/`Except`; `none`/`.error` marks the raise.
- In-place mutation of the stream records shared between the input
  catalog and the planner output is made explicit: the planner is split
  into the value it returns (`populate_generable_streams`) and the
  post-call state of its input (`inputAfterPlan`).
-/

set_option maxRecDepth 4096

/-- `STANDARD_AUDIO_LAYOUTS` from `ffclient.py`: standard layouts in
quality order (index = quality rank). -/
def STANDARD_AUDIO_LAYOUTS : List String :=
  ["mono", "stereo", "downmix", "2.1", "3.0", "3.0(back)", "4.0", "quad",
   "quad(side)", "3.1", "5.0", "5.0(side)", "4.1", "5.1", "5.1(side)",
   "6.0", "6.0(front)", "hexagonal", "6.1", "6.1(back)", "6.1(front)",
   "7.0", "7.0(front)", "7.1", "7.1(wide)", "7.1(wide-side)", "7.1(top)",
   "octagonal", "cube", "hexadecagonal", "22.2"]

/-- `STEREO_COMPATIBLE` from `ffclient.py`. -/
def STEREO_COMPATIBLE : List String := ["stereo", "downmix"]

/-- `FIVE_ONE_COMPATIBLE` from `ffclient.py`. -/
def FIVE_ONE_COMPATIBLE : List String := ["5.1", "5.1(side)"]

/-- `SEVEN_ONE_COMPATIBLE` from `ffclient.py`. -/
def SEVEN_ONE_COMPATIBLE : List String :=
  ["7.1", "7.1(wide)", "7.1(wide-side)", "7.1(top)"]

/-- The stereo downmix filter expression configured in
`COMPATIBLE_DOWNMIXES` of `ffclient.py`. -/
def STEREO_DOWNMIX_FILTER : String :=
  "volume=1.66, pan=stereo|c0=0.5*c2+0.707*c0+0.707*c4+0.5*c3|c1=0.5*c2+0.707*c1+0.707*c5+0.5*c3"

/-- One compatibility rule: a set of source layouts, a filter expression
and a codec (`I_downmix_for_layout` in `ffclient.py`). -/
def DownmixRule := List String × String × String

/-- `COMPATIBLE_DOWNMIXES` from `ffclient.py`: an insertion-ordered map
from target layout to its ordered rule list. -/
def COMPATIBLE_DOWNMIXES : List (String × List DownmixRule) :=
  [("stereo",
    [(FIVE_ONE_COMPATIBLE, STEREO_DOWNMIX_FILTER, "aac_at"),
     (SEVEN_ONE_COMPATIBLE, STEREO_DOWNMIX_FILTER, "aac_at")]),
   ("5.1", [])]

/-- `COMPATIBLE_DOWNMIX_LAYOUTS` from `ffclient.py`: per target layout,
the union of the source-layout sets of its rules (membership-equivalent
list model of the Python `set`). -/
def COMPATIBLE_DOWNMIX_LAYOUTS : List (String × List String) :=
  COMPATIBLE_DOWNMIXES.map (fun p => (p.1, (p.2.map (fun f => f.1)).flatten))

/-- Lookup in `COMPATIBLE_DOWNMIX_LAYOUTS`; the Python code only ever
subscripts with the statically present keys "stereo" and "5.1". -/
def downmix_layouts (key : String) : List String :=
  ((COMPATIBLE_DOWNMIX_LAYOUTS.find? (fun p => p.1 == key)).map (fun p => p.2)).getD []

/-- Index of the first occurrence of `s` in `l` (Python `list.index`,
with `none` standing for the raised `ValueError`). -/
def list_index (l : List String) (s : String) : Option Nat :=
  match l with
  | [] => none
  | x :: xs => if x = s then some 0 else (list_index xs s).map (fun i => i + 1)

/-- `FFClient.get_audio_layout_order`: rank of a layout in
`STANDARD_AUDIO_LAYOUTS`, `-1` for an unknown layout. -/
def get_audio_layout_order (layout : String) : Int :=
  match list_index STANDARD_AUDIO_LAYOUTS layout with
  | some i => (i : Int)
  | none => -1

/-- Stable descending insertion by an integer key: `a` is placed before
the first element whose key is not larger, matching the behaviour of
Python `sorted(key, reverse=True)` on ties. -/
def insertDesc (rank : α → Int) (a : α) : List α → List α
  | [] => [a]
  | b :: bs => if rank b > rank a then b :: insertDesc rank a bs else a :: b :: bs

/-- Stable sort, descending by an integer key: the model of Python
`sorted(xs, key, reverse=True)` / `xs.sort(key, reverse=True)`. -/
def sortDesc (rank : α → Int) : List α → List α
  | [] => []
  | a :: as => insertDesc rank a (sortDesc rank as)

/-- An existing audio stream as produced by `read_streams`
(`AudioExistentStream` in `ffclient.py`); `from_compatible` is
`none` while the key is absent, `some none` once set to Python `None`. -/
structure AudioExistentStream where
  index : Nat
  from_index : Option Nat
  from_compatible : Option (Option (List Nat))
  layout : String
  title : Option String
deriving DecidableEq, Repr

/-- An audio entry of a planned catalog: either an existing stream
(`index = some _`) or a generable one (`index = none`); covers
`AudioExistentStream | AudioGenerableStream` of `ffclient.py`. -/
structure AudioEntry where
  index : Option Nat
  from_index : Option Nat
  from_compatible : Option (Option (List Nat))
  layout : String
  title : Option String
deriving DecidableEq, Repr

/-- `VideoExistentStream` of `ffclient.py`. -/
structure VideoExistentStream where
  index : Nat
  width : Nat
  height : Nat
  display_aspect_ratio : String
deriving DecidableEq, Repr

/-- A subtitle or "other" stream: only its index is kept. -/
structure IndexedStream where
  index : Nat
deriving DecidableEq, Repr

/-- `AllStreams` of `ffclient.py`: the catalog built by `read_streams`
before planning.  The audio map is an insertion-ordered association
list from language (Python `None` key allowed) to the stream list. -/
structure AllStreams where
  video : List VideoExistentStream
  audio : List (Option String × List AudioExistentStream)
  subtitle : List IndexedStream
  other : List IndexedStream
deriving DecidableEq, Repr

/-- `AllStreamsWithGenerables` of `ffclient.py`: the planned catalog. -/
structure AllStreamsWithGenerables where
  video : List VideoExistentStream
  audio : List (Option String × List AudioEntry)
  subtitle : List IndexedStream
  other : List IndexedStream
deriving DecidableEq, Repr

/-- `FFClient.audio_lang_has_stereo`. -/
def audio_lang_has_stereo (streams : List AudioExistentStream) : Bool :=
  streams.any (fun s => STEREO_COMPATIBLE.contains s.layout)

/-- `FFClient.audio_lang_has_five`. -/
def audio_lang_has_five (streams : List AudioExistentStream) : Bool :=
  streams.any (fun s => FIVE_ONE_COMPATIBLE.contains s.layout)

/-- The per-stream mutation performed by the loop at
`ffclient.py:232-248`: sets `from_compatible` for stereo- and
5.1-family layouts and re-sets `from_index` to the stream's own index.
`group` is the language's stream list the loop filters over (the
filters only read `layout`, which the loop never writes, so the
sequential in-place updates are equivalent to this per-element map). -/
def updateStream (group : List AudioExistentStream) (s : AudioExistentStream) :
    AudioExistentStream :=
  let s1 :=
    if STEREO_COMPATIBLE.contains s.layout then
      let cs := group.filter (fun t => (downmix_layouts "stereo").contains t.layout)
      let fc := if cs.isEmpty then none else some (cs.map (fun t => t.index))
      { s with from_compatible := some fc }
    else if FIVE_ONE_COMPATIBLE.contains s.layout then
      let cs := group.filter (fun t => (downmix_layouts "5.1").contains t.layout)
      { s with from_compatible := some (some (cs.map (fun t => t.index))) }
    else s
  { s1 with from_index := some s1.index }

/-- View of an existing stream as a plan entry (in Python the very same
dictionary appears in both lists). -/
def toEntry (s : AudioExistentStream) : AudioEntry :=
  { index := some s.index, from_index := s.from_index,
    from_compatible := s.from_compatible, layout := s.layout, title := s.title }

/-- The synthetic stereo entry of the stereo-generation block,
`ffclient.py:250-261`: `from_index` defaults to the first compatible
source of the (already updated) language list, or `None` when none
exists; `from_compatible` lists all compatible sources. -/
def stereoGen (g : List AudioExistentStream) : AudioEntry :=
  let upd := g.map (updateStream g)
  let cs := upd.filter (fun t => (downmix_layouts "stereo").contains t.layout)
  { index := none,
    from_index := (cs.head?).map (fun t => t.index),
    from_compatible := some (some (cs.map (fun t => t.index))),
    layout := "stereo", title := some "" }

/-- The synthetic 5.1 entry of the 5.1-generation block,
`ffclient.py:263-269`: `from_index` is hard-wired to the first (best
quality) existing stream's index, and no `from_compatible` key is
written. -/
def fiveGen (s0 : AudioExistentStream) : AudioEntry :=
  { index := none, from_index := some s0.index,
    from_compatible := none, layout := "5.1", title := some "" }

/-- Planning of one language group, `ffclient.py:226-274`: copy the
existing streams (with their in-place updates), append the generable
stereo and 5.1 entries when missing, and re-sort by quality.  An empty
group is skipped (`continue`). -/
def planGroup (g : List AudioExistentStream) : List AudioEntry :=
  match g with
  | [] => []
  | s0 :: _ =>
    let upd := g.map (updateStream g)
    let gens1 : List AudioEntry :=
      if audio_lang_has_stereo g then [] else [stereoGen g]
    let gens2 : List AudioEntry :=
      if audio_lang_has_five g then [] else [fiveGen s0]
    sortDesc (fun e => get_audio_layout_order e.layout)
      (upd.map toEntry ++ gens1 ++ gens2)

/-- `FFClient.populate_generable_streams`: the planned catalog the call
returns. -/
def populate_generable_streams (streams : AllStreams) : AllStreamsWithGenerables :=
  { video := streams.video,
    audio := streams.audio.map (fun p => (p.1, planGroup p.2)),
    subtitle := streams.subtitle,
    other := streams.other }

/-- The state of the *input* catalog after
`populate_generable_streams` returns: the language lists keep their
length and order (extension and re-sorting happen on the copied lists),
but the stream records themselves are shared and mutated in place. -/
def inputAfterPlan (streams : AllStreams) : AllStreams :=
  { streams with
    audio := streams.audio.map (fun p => (p.1, p.2.map (updateStream p.2))) }

/-- Rule resolution used by the convert branch of
`ff_get_command_args`: `COMPATIBLE_DOWNMIXES[target]` followed by the
first rule whose source set contains `source_layout`.  `none` models
both the `KeyError` (unknown target) and the `StopIteration` of the
exhausted `next(...)` (no rule covers the source layout). -/
def ruleFor (target source_layout : String) : Option DownmixRule :=
  match COMPATIBLE_DOWNMIXES.find? (fun p => p.1 == target) with
  | none => none
  | some p => p.2.find? (fun r => r.1.contains source_layout)

/-- The argument string of a copied audio stream
(`ffclient.py:318`). -/
def copyAudioArg (fi n : Nat) : String :=
  "-map 0:" ++ toString fi ++ " -c:a:" ++ toString n ++ " copy"

/-- The argument string of a converted (downmixed) audio stream
(`ffclient.py:334-335`). -/
def convertAudioArg (fi n : Nat) (dcodec dfilter : String) : String :=
  "-map 0:" ++ toString fi ++ " -c:a:" ++ toString n ++ " " ++ dcodec ++
    " \\\n     -filter:a:" ++ toString n ++ " \"" ++ dfilter ++ "\""

/-- Processing of one audio entry in the loop of
`ff_get_command_args` (`ffclient.py:304-337`): takes the current output
audio counter, returns the emitted argument strings and the new
counter; `none` models an uncaught exception in the convert branch. -/
def audioEntryArgs (streams_of_lang : List AudioEntry) (e : AudioEntry) (n : Nat) :
    Option (List String × Nat) :=
  match e.from_index with
  | none => some ([], n)
  | some fi =>
    if e.index = some fi then
      some ([copyAudioArg fi n], n + 1)
    else
      match streams_of_lang.find? (fun x => x.index == some fi) with
      | none => none
      | some from_stream =>
        match ruleFor e.layout from_stream.layout with
        | none => none
        | some r => some ([convertAudioArg fi n r.2.2 r.2.1], n + 1)

/-- The inner audio loop over one language's entries. -/
def audioLangArgs (streams_of_lang : List AudioEntry) :
    List AudioEntry → Nat → Option (List String × Nat)
  | [], n => some ([], n)
  | e :: rest, n =>
    match audioEntryArgs streams_of_lang e n with
    | none => none
    | some (as1, n1) =>
      match audioLangArgs streams_of_lang rest n1 with
      | none => none
      | some (as2, n2) => some (as1 ++ as2, n2)

/-- The outer audio loop over the language map. -/
def audioAllArgs : List (Option String × List AudioEntry) → Nat → Option (List String × Nat)
  | [], n => some ([], n)
  | (_, g) :: rest, n =>
    match audioLangArgs g g n with
    | none => none
    | some (as1, n1) =>
      match audioAllArgs rest n1 with
      | none => none
      | some (as2, n2) => some (as1 ++ as2, n2)

/-- `FFClient.ff_get_command_args`, as the list of argument strings it
appends to `args` (the Python function joins them with " \\\n " at the
end); `none` models the exceptions that can escape the audio loop. -/
def ff_get_args (streams : AllStreamsWithGenerables) : Option (List String) :=
  let videoArgs := streams.video.enum.map
    (fun p => "-map 0:" ++ toString p.2.index ++ " -c:v:" ++ toString p.1 ++ " copy")
  match audioAllArgs streams.audio 0 with
  | none => none
  | some (aArgs, ac) =>
    let base := streams.video.length + ac
    let subArgs := streams.subtitle.enum.map
      (fun p => "-map 0:" ++ toString p.2.index ++ " -c:" ++ toString (base + p.1) ++ " mov_text")
    let base2 := base + streams.subtitle.length
    let othArgs := streams.other.enum.map
      (fun p => "-map 0:" ++ toString p.2.index ++ " -c:" ++ toString (base2 + p.1) ++ " copy")
    some (["-strict -2", "-global_quality:a 0"] ++ videoArgs ++ aArgs ++ subArgs ++ othArgs)

/-- `FFClient.ff_get_command_args` proper: the joined argument string. -/
def ff_get_command_args (streams : AllStreamsWithGenerables) : Option String :=
  (ff_get_args streams).map (fun args => String.intercalate " \\\n " args)

/-- One raw probed stream record, with the fields `read_streams`
consumes (a well-formed record of the external prober). -/
structure RawStream where
  index : Nat
  codec_type : String
  width : Nat
  height : Nat
  display_aspect_ratio : String
  channel_layout : String
  language : Option String
  title : Option String
deriving DecidableEq, Repr

/-- Append an audio stream to its language group, creating the group at
the end of the map when the language is new (Python dict semantics). -/
def addAudio (audio : List (Option String × List AudioExistentStream))
    (lang : Option String) (s : AudioExistentStream) :
    List (Option String × List AudioExistentStream) :=
  match audio with
  | [] => [(lang, [s])]
  | (k, g) :: rest =>
    if k = lang then (k, g ++ [s]) :: rest else (k, g) :: addAudio rest lang s

/-- `FFClient.ff_create_empty_data`. -/
def ff_create_empty_data : AllStreams :=
  { video := [], audio := [], subtitle := [], other := [] }

/-- One iteration of the categorization loop of `read_streams`
(`ffclient.py:176-197`). -/
def stepStream (acc : AllStreams) (r : RawStream) : AllStreams :=
  if r.codec_type = "video" then
    { acc with video := acc.video ++
        [{ index := r.index, width := r.width, height := r.height,
           display_aspect_ratio := r.display_aspect_ratio }] }
  else if r.codec_type = "audio" then
    let s : AudioExistentStream :=
      { index := r.index, from_index := some r.index, from_compatible := none,
        layout := r.channel_layout, title := r.title }
    { acc with audio := addAudio acc.audio r.language s }
  else if r.codec_type = "subtitle" then
    { acc with subtitle := acc.subtitle ++ [{ index := r.index }] }
  else
    { acc with other := acc.other ++ [{ index := r.index }] }

/-- The catalog `read_streams` builds from the record list: categorize
in encounter order, then sort each language group by quality
descending (`ffclient.py:175-205`). -/
def buildCatalog (records : List RawStream) : AllStreams :=
  let s := records.foldl stepStream ff_create_empty_data
  let sortedAudio :=
    s.audio.map (fun p => (p.1, sortDesc (fun t => get_audio_layout_order t.layout) p.2))
  { s with audio := sortedAudio }

/-- The error kinds `read_streams` can raise: `fileNotFound` models the
`FileNotFoundError` ("no file"), `emptyCatalog` the `TypeError` raised
on an empty probed record list (the spec's `EmptyCatalogError`). -/
inductive ReadStreamsError where
  | fileNotFound
  | emptyCatalog
deriving DecidableEq, Repr

/-- `FFClient.read_streams`: the filesystem checks are abstracted into
the two booleans `path_exists` (`os.path.exists`) and `is_file`
(`os.path.isfile`), and the probed record list is a parameter.  The
returned pair is (planned catalog, input catalog as left after the
planner's in-place mutations). -/
def read_streams (path_exists is_file : Bool) (records : List RawStream) :
    Except ReadStreamsError (AllStreamsWithGenerables × AllStreams) :=
  if !path_exists || !is_file then .error .fileNotFound
  else if records.isEmpty then .error .emptyCatalog
  else
    let streams := buildCatalog records
    .ok (populate_generable_streams streams, inputAfterPlan streams)

/-- A filesystem tree node: a regular file or a directory with its
entries, each carrying its base name. -/
inductive FSEntry where
  | file (name : String)
  | dir (name : String) (entries : List FSEntry)

/-- Stable ascending insertion for strings. -/
def insertAsc (a : String) : List String → List String
  | [] => [a]
  | b :: bs => if a ≤ b then a :: b :: bs else b :: insertAsc a bs

/-- Stable ascending sort of strings: Python `list.sort()`. -/
def sortAsc : List String → List String
  | [] => []
  | a :: as => insertAsc a (sortAsc as)

mutual

/-- `filewalk.list_files`: `node` is the filesystem object at `path`,
`pattern` is `pattern.search` on a full path.  A regular file is
returned as a one-element list immediately; a directory's entries are
filtered (files) or recursed into (directories) and the collected
result is sorted. -/
def list_files (pattern : String → Bool) : FSEntry → String → List String
  | .file _, path => [path]
  | .dir _ entries, path => sortAsc (list_children pattern entries path)

/-- The loop over `os.listdir(folder)` inside `filewalk.list_files`. -/
def list_children (pattern : String → Bool) : List FSEntry → String → List String
  | [], _ => []
  | .file name :: es, path =>
    (if pattern (path ++ "/" ++ name) then [path ++ "/" ++ name] else []) ++
      list_children pattern es path
  | .dir name sub :: es, path =>
    list_files pattern (.dir name sub) (path ++ "/" ++ name) ++
      list_children pattern es path

end

/-- Append job `i` to queue `k` of the distribution list
(`self.command_distribution[k].append(i)`); `k` is always in range in
the scheduler (`k = i % W < W`). -/
def appendAt (dist : List (List Nat)) (k : Nat) (i : Nat) : List (List Nat) :=
  match dist, k with
  | [], _ => []
  | q :: rest, 0 => (q ++ [i]) :: rest
  | q :: rest, k + 1 => q :: appendAt rest k i

/-- The scheduler's queue construction in `FFReplexGui.process_files`
(`__init__.py:279-281`): `W` empty queues, then job `i` is appended to
queue `i % W` for `i < N`. -/
def command_distribution (N W : Nat) : List (List Nat) :=
  (List.range N).foldl (fun dist i => appendAt dist (i % W) i) (List.replicate W [])

/-- Concrete catalog for the C4 scenario: one video stream and one
English language group with a "5.1" track (input index 1) and a "mono"
track (input index 2), no stereo track. -/
def c4cat : AllStreams :=
  { video := [{ index := 0, width := 1920, height := 1080, display_aspect_ratio := "16:9" }],
    audio := [(some "eng",
      [{ index := 1, from_index := some 1, from_compatible := none,
         layout := "5.1", title := some "Surround" },
       { index := 2, from_index := some 2, from_compatible := none,
         layout := "mono", title := some "Mono" }])],
    subtitle := [], other := [] }

/-- Concrete catalog for the C1 scenario: a single language group whose
only track is "stereo" (input index 1); no 5.1-compatible source exists
anywhere. -/
def c1cat : AllStreams :=
  { video := [],
    audio := [(some "eng",
      [{ index := 1, from_index := some 1, from_compatible := none,
         layout := "stereo", title := some "Stereo" }])],
    subtitle := [], other := [] }

/-- Concrete catalog for the C3 counterexample: one language group with
a single "5.1" track. -/
def c3cat : AllStreams :=
  { video := [],
    audio := [(some "fra",
      [{ index := 3, from_index := some 3, from_compatible := none,
         layout := "5.1", title := some "VF" }])],
    subtitle := [], other := [] }

/-- Concrete planned catalog for C2: one video stream, one copied
stereo audio stream, one subtitle stream (index 2), one other stream
(index 3). -/
def c2cat : AllStreamsWithGenerables :=
  { video := [{ index := 0, width := 1920, height := 1080, display_aspect_ratio := "16:9" }],
    audio := [(some "eng",
      [{ index := some 1, from_index := some 1, from_compatible := none,
         layout := "stereo", title := some "Stereo" }])],
    subtitle := [{ index := 2 }], other := [{ index := 3 }] }

/-- Concrete planned catalog for the C8 witness: the stereo entry's
chosen source (index 2) is the mono track, and no compatibility rule
covers a mono source for the stereo target. -/
def c8cat : AllStreamsWithGenerables :=
  { video := [],
    audio := [(some "eng",
      [{ index := some 1, from_index := some 2, from_compatible := none,
         layout := "stereo", title := some "Stereo" },
       { index := some 2, from_index := some 2, from_compatible := none,
         layout := "mono", title := some "Mono" }])],
    subtitle := [], other := [] }

/-- Concrete language group for the C5 witness: a "5.1" track (index 4)
and a "mono" track (index 5), sorted by quality descending. -/
def c5group : List AudioExistentStream :=
  [{ index := 4, from_index := some 4, from_compatible := none,
     layout := "5.1", title := some "Surround" },
   { index := 5, from_index := some 5, from_compatible := none,
     layout := "mono", title := some "Mono" }]

/-- Concrete raw record for the C7 witness. -/
def c7record : RawStream :=
  { index := 0, codec_type := "video", width := 1280, height := 720,
    display_aspect_ratio := "16:9", channel_layout := "", language := none,
    title := none }

/-- Claim C1 (code bug): on a language group holding only a "stereo"
track and no 5.1-compatible source, the planner appends a synthetic
"5.1" entry whose `from_index` is the *stereo* track's index (not
`none`, as specified) and which carries no `from_compatible` key, and
`ff_get_command_args` then fails on that entry (the `next(...)` over
the empty `COMPATIBLE_DOWNMIXES['5.1']` rule list raises
`StopIteration`) instead of skipping it. -/
theorem C1_code_eval :
    (populate_generable_streams c1cat).audio =
      [(some "eng",
        [{ index := none, from_index := some 1, from_compatible := none,
           layout := "5.1", title := some "" },
         { index := some 1, from_index := some 1, from_compatible := some none,
           layout := "stereo", title := some "Stereo" }])] ∧
    ff_get_args (populate_generable_streams c1cat) = none ∧
    ff_get_command_args (populate_generable_streams c1cat) = none := by
  refine ⟨by decide, by decide, by decide⟩

/-- Claim C2, counterexample: the Command Synthesizer emits a
`mov_text` mapping for a subtitle stream, not a pass-through copy
mapping; no copy mapping for the subtitle stream (input index 2, output
index 2) appears anywhere in the emitted argument list. -/
theorem C2_counterexample :
    ff_get_args c2cat =
      some ["-strict -2", "-global_quality:a 0", "-map 0:0 -c:v:0 copy",
            "-map 0:1 -c:a:0 copy", "-map 0:2 -c:2 mov_text", "-map 0:3 -c:3 copy"] ∧
    "-map 0:2 -c:2 copy" ∉
      ["-strict -2", "-global_quality:a 0", "-map 0:0 -c:v:0 copy",
       "-map 0:1 -c:a:0 copy", "-map 0:2 -c:2 mov_text", "-map 0:3 -c:3 copy"] := by
  refine ⟨by decide, by decide⟩

/-- Claim C3, counterexample: planning mutates the input catalog in
place.  After planning `c3cat` (one "5.1" track), the shared stream
record of the input has acquired a `from_compatible` key, so the input
catalog is no longer equal to its pre-call value. -/
theorem C3_counterexample : inputAfterPlan c3cat ≠ c3cat := by decide

/-- Claim C4: on a group with a "5.1" and a "mono" track (no stereo),
the plan keeps the existing "5.1" and "mono" entries as copies and adds
a synthetic "stereo" entry whose chosen source is the "5.1" track's
index 1; the synthesized command has one copy mapping for "5.1", one
copy mapping for "mono", and one transform mapping from index 1
carrying the configured downmix filter and the `aac_at` codec. -/
theorem C4_end_to_end :
    (populate_generable_streams c4cat).audio =
      [(some "eng",
        [{ index := some 1, from_index := some 1, from_compatible := some (some []),
           layout := "5.1", title := some "Surround" },
         { index := none, from_index := some 1, from_compatible := some (some [1]),
           layout := "stereo", title := some "" },
         { index := some 2, from_index := some 2, from_compatible := none,
           layout := "mono", title := some "Mono" }])] ∧
    ff_get_args (populate_generable_streams c4cat) =
      some ["-strict -2", "-global_quality:a 0", "-map 0:0 -c:v:0 copy",
            "-map 0:1 -c:a:0 copy",
            "-map 0:1 -c:a:1 aac_at \\\n     -filter:a:1 \"" ++ STEREO_DOWNMIX_FILTER ++ "\"",
            "-map 0:2 -c:a:2 copy"] := by
  refine ⟨by decide, by decide⟩

/-- Claim C10: `list_files` on a path that is a regular file returns
the one-element list holding that path, for every pattern; in
particular the result does not depend on the pattern at all. -/
theorem C10_file_passthrough (p1 p2 : String → Bool) (name path : String) :
    list_files p1 (FSEntry.file name) path = [path] ∧
    list_files p1 (FSEntry.file name) path = list_files p2 (FSEntry.file name) path := by
  exact ⟨rfl, rfl⟩

/-- `list_index` misses exactly the absent elements. -/
theorem list_index_eq_none_of_not_mem {l : List String} {s : String} (h : s ∉ l) :
    list_index l s = none := by
  induction l with
  | nil => rfl
  | cons x xs ih =>
    have hxs : ¬x = s := fun hx => h (hx ▸ List.mem_cons_self x xs)
    have hmem : s ∉ xs := fun hx => h (List.mem_cons_of_mem x hx)
    simp [list_index, hxs, ih hmem]

/-- `list_index` hits every present element. -/
theorem list_index_isSome_of_mem {l : List String} {s : String} (h : s ∈ l) :
    ∃ i, list_index l s = some i := by
  induction l with
  | nil => cases h
  | cons x xs ih =>
    by_cases hx : x = s
    · exact ⟨0, by simp [list_index, hx]⟩
    · rcases List.mem_cons.mp h with hh | hh
      · exact absurd hh.symm hx
      · obtain ⟨i, hi⟩ := ih hh
        exact ⟨i + 1, by simp [list_index, hx, hi]⟩

/-- Claim C6: the rank map of `get_audio_layout_order` is injective on
the known layout tokens (so the induced comparison is a strict total
order: distinct known tokens never compare equal), every unknown token
gets rank `-1` without error, and an unknown token's rank is strictly
below every known token's rank, so unknown tokens sort after all known
ones in the descending-quality sort. -/
theorem C6_layout_order :
    (∀ a ∈ STANDARD_AUDIO_LAYOUTS, ∀ b ∈ STANDARD_AUDIO_LAYOUTS,
        get_audio_layout_order a = get_audio_layout_order b → a = b) ∧
    (∀ u, u ∉ STANDARD_AUDIO_LAYOUTS → get_audio_layout_order u = -1) ∧
    (∀ u k, u ∉ STANDARD_AUDIO_LAYOUTS → k ∈ STANDARD_AUDIO_LAYOUTS →
        get_audio_layout_order u < get_audio_layout_order k) := by
  have hnodup : (STANDARD_AUDIO_LAYOUTS.map get_audio_layout_order).Nodup := by decide
  have hunknown : ∀ u, u ∉ STANDARD_AUDIO_LAYOUTS → get_audio_layout_order u = -1 := by
    intro u hu
    unfold get_audio_layout_order
    rw [list_index_eq_none_of_not_mem hu]
  refine ⟨?_, hunknown, ?_⟩
  · intro a ha b hb hab
    exact List.inj_on_of_nodup_map hnodup ha hb hab
  · intro u k hu hk
    obtain ⟨i, hi⟩ := list_index_isSome_of_mem hk
    rw [hunknown u hu]
    unfold get_audio_layout_order
    rw [hi]
    exact lt_of_lt_of_le (by norm_num) (Int.ofNat_nonneg i)

/-- Witness for C6 at concrete tokens: the unknown token "binaural"
ranks `-1` and strictly below the known token "22.2". -/
theorem C6_layout_order_witness :
    get_audio_layout_order "binaural" = -1 ∧
    get_audio_layout_order "binaural" < get_audio_layout_order "22.2" ∧
    ("5.1" : String) = "5.1" := by
  refine ⟨C6_layout_order.2.1 "binaural" (by decide),
          C6_layout_order.2.2 "binaural" "22.2" (by decide) (by decide),
          C6_layout_order.1 "5.1" (by decide) "5.1" (by decide) rfl⟩

/-- Claim C7: `read_streams` raises the "no file" error exactly when
the path does not exist or is not a regular file; when the file checks
pass it raises the empty-catalog error exactly when the probed record
list is empty, and returns a catalog without error otherwise. -/
theorem C7_read_streams (ex isf : Bool) (records : List RawStream) :
    (read_streams ex isf records = .error .fileNotFound ↔ (ex = false ∨ isf = false)) ∧
    (ex = true → isf = true →
      (read_streams ex isf records = .error .emptyCatalog ↔ records = [])) ∧
    (ex = true → isf = true → records ≠ [] →
      ∃ r, read_streams ex isf records = .ok r) := by
  cases ex <;> cases isf <;> cases records <;> simp [read_streams]

/-- Witness for C7: a missing file errors with the "no file" kind, an
existing regular file with an empty probe errors with the
empty-catalog kind, and a non-empty probe succeeds. -/
theorem C7_read_streams_witness :
    read_streams false true [c7record] = .error .fileNotFound ∧
    read_streams true true [] = .error .emptyCatalog ∧
    ∃ r, read_streams true true [c7record] = .ok r := by
  refine ⟨(C7_read_streams false true [c7record]).1.mpr (Or.inl rfl),
          ((C7_read_streams true true []).2.1 rfl rfl).mpr rfl,
          (C7_read_streams true true [c7record]).2.2 rfl rfl (by simp)⟩

/-- `appendAt` leaves every queue but the targeted one unchanged and
appends to the targeted one. -/
theorem appendAt_get? (i : Nat) (dist : List (List Nat)) (k j : Nat) :
    (appendAt dist k i).get? j =
      if j = k then (dist.get? j).map (fun q => q ++ [i]) else dist.get? j := by
  induction dist generalizing k j with
  | nil => cases k <;> cases j <;> simp [appendAt]
  | cons q rest ih =>
    cases k with
    | zero => cases j <;> simp [appendAt]
    | succ k1 =>
      cases j with
      | zero => simp [appendAt]
      | succ j1 => simpa [appendAt] using ih k1 j1

/-- Every in-range queue of the initial distribution is empty. -/
theorem replicate_get? (W j : Nat) (h : j < W) :
    (List.replicate W ([] : List Nat)).get? j = some [] := by
  induction W generalizing j with
  | zero => cases h
  | succ w ih =>
    cases j with
    | zero => rfl
    | succ j1 => exact ih j1 (Nat.lt_of_succ_lt_succ h)

/-- Unfolding one scheduler step. -/
theorem command_distribution_succ (N W : Nat) :
    command_distribution (N + 1) W = appendAt (command_distribution N W) (N % W) N := by
  unfold command_distribution
  rw [List.range_succ, List.foldl_append]
  rfl

/-- Claim C9: the scheduler assigns job `i` to the queue of slot
`i % W`, each queue listing its jobs in ascending order (queue `j`
is exactly the ascending list of the `i < N` with `i % W = j`); for
`N = 7`, `W = 3` the queues are `[0,3,6]`, `[1,4]`, `[2,5]`. -/
theorem C9_round_robin (N W j : Nat) (hj : j < W) :
    (command_distribution N W).get? j =
      some ((List.range N).filter (fun i => i % W == j)) ∧
    command_distribution 7 3 = [[0, 3, 6], [1, 4], [2, 5]] := by
  refine ⟨?_, by decide⟩
  induction N with
  | zero =>
    simpa [command_distribution] using replicate_get? W j hj
  | succ n ih =>
    rw [command_distribution_succ, appendAt_get? n _ (n % W) j, List.range_succ,
        List.filter_append, ih]
    by_cases h : j = n % W
    · simp [h, Option.map_some]
    · have hb : ((n % W == j) = false) := by
        exact beq_false_of_ne (fun hh => h hh.symm)
      simp [h, hb]

/-- Witness for C9: slot 1 of the 7-job, 3-slot batch gets exactly the
jobs 1 and 4, via the general round-robin theorem. -/
theorem C9_round_robin_witness :
    (command_distribution 7 3).get? 1 = some [1, 4] := by
  have h := (C9_round_robin 7 3 1 (by decide)).1
  rw [h]
  decide

/-- `updateStream` only touches `from_index` and `from_compatible`. -/
theorem updateStream_proj (g : List AudioExistentStream) (s : AudioExistentStream) :
    (updateStream g s).index = s.index ∧ (updateStream g s).layout = s.layout ∧
    (updateStream g s).title = s.title := by
  unfold updateStream
  dsimp only
  split
  · simp
  · split <;> simp

/-- Claim C3, amended: planning does mutate the shared stream records
of the input catalog in place (`from_index` and `from_compatible`),
but it changes nothing else: the input's video, subtitle and other
lists are untouched, and every language group keeps its key, its
length, its order and every stream's `index`, `layout` and `title`. -/
theorem C3_no_structural_mutation (c : AllStreams) :
    (inputAfterPlan c).video = c.video ∧
    (inputAfterPlan c).subtitle = c.subtitle ∧
    (inputAfterPlan c).other = c.other ∧
    (inputAfterPlan c).audio.map
        (fun p => (p.1, p.2.map (fun s => (s.index, s.layout, s.title)))) =
      c.audio.map (fun p => (p.1, p.2.map (fun s => (s.index, s.layout, s.title)))) := by
  refine ⟨rfl, rfl, rfl, ?_⟩
  unfold inputAfterPlan
  dsimp only
  rw [List.map_map]
  apply List.map_congr_left
  intro p _
  dsimp only [Function.comp]
  rw [List.map_map]
  apply congrArg
  apply List.map_congr_left
  intro s _
  obtain ⟨h1, h2, h3⟩ := updateStream_proj p.2 s
  simp [Function.comp, h1, h2, h3]

/-- Insertion keeps exactly the old elements plus the new one. -/
theorem mem_insertDesc {α : Type} (rank : α → Int) (a x : α) (l : List α) :
    x ∈ insertDesc rank a l ↔ x = a ∨ x ∈ l := by
  induction l with
  | nil => simp [insertDesc]
  | cons b bs ih =>
    unfold insertDesc
    split
    · simp only [List.mem_cons, ih]
      tauto
    · simp only [List.mem_cons]

/-- The quality sort is a permutation at the level of membership. -/
theorem mem_sortDesc {α : Type} (rank : α → Int) (l : List α) (x : α) :
    x ∈ sortDesc rank l ↔ x ∈ l := by
  induction l with
  | nil => simp [sortDesc]
  | cons a as ih => simp [sortDesc, mem_insertDesc, ih]

/-- Membership in a planned non-empty language group: an entry is an
updated existing stream, the synthetic stereo entry (present exactly
when the group lacks a stereo-compatible track), or the synthetic 5.1
entry (present exactly when the group lacks a 5.1-compatible track). -/
theorem mem_planGroup_cons (s0 : AudioExistentStream) (rest : List AudioExistentStream)
    (e : AudioEntry) :
    e ∈ planGroup (s0 :: rest) ↔
      ((∃ u ∈ s0 :: rest, e = toEntry (updateStream (s0 :: rest) u)) ∨
       (audio_lang_has_stereo (s0 :: rest) = false ∧ e = stereoGen (s0 :: rest)) ∨
       (audio_lang_has_five (s0 :: rest) = false ∧ e = fiveGen s0)) := by
  show e ∈ sortDesc _ _ ↔ _
  rw [mem_sortDesc, List.map_map]
  cases h1 : audio_lang_has_stereo (s0 :: rest) <;>
    cases h2 : audio_lang_has_five (s0 :: rest) <;>
      simp [h1, h2, List.mem_append, eq_comm, Function.comp, or_and_right,
            exists_or, exists_eq_left] <;> aesop

/-- The synthetic stereo entry always has layout "stereo". -/
theorem stereoGen_layout (g : List AudioExistentStream) : (stereoGen g).layout = "stereo" :=
  rfl

/-- The synthetic 5.1 entry always has layout "5.1". -/
theorem fiveGen_layout (s0 : AudioExistentStream) : (fiveGen s0).layout = "5.1" :=
  rfl

/-- Claim C5: in a non-empty, quality-sorted language group, a
synthetic stereo entry is planned iff no original track's layout is in
the stereo-compatible set, a synthetic 5.1 entry is planned iff no
original track's layout is in the 5.1-compatible set, and a planned
synthetic stereo entry's `from_index` is the first (hence, by the
descending sort, best-quality-ranked) downmix-compatible source of the
group, or `none` when no compatible source exists. -/
theorem C5_generation_iff (g : List AudioExistentStream) (hne : g ≠ [])
    (hsorted : g.Pairwise (fun a b =>
      get_audio_layout_order b.layout ≤ get_audio_layout_order a.layout)) :
    ((∃ e ∈ planGroup g, e.index = none ∧ e.layout = "stereo") ↔
        audio_lang_has_stereo g = false) ∧
    ((∃ e ∈ planGroup g, e.index = none ∧ e.layout = "5.1") ↔
        audio_lang_has_five g = false) ∧
    (∀ e ∈ planGroup g, e.index = none → e.layout = "stereo" →
      (e.from_index =
        ((g.filter (fun t => (downmix_layouts "stereo").contains t.layout)).head?).map
          (fun t => t.index) ∧
       ∀ b, (g.filter (fun t => (downmix_layouts "stereo").contains t.layout)).head? =
          some b →
         ∀ t ∈ g, (downmix_layouts "stereo").contains t.layout = true →
           get_audio_layout_order t.layout ≤ get_audio_layout_order b.layout)) := by
  obtain ⟨s0, rest, rfl⟩ := List.exists_cons_of_ne_nil hne
  refine ⟨⟨?_, ?_⟩, ⟨?_, ?_⟩, ?_⟩
  · rintro ⟨e, he, hidx, hlay⟩
    rcases (mem_planGroup_cons s0 rest e).mp he with ⟨u, _, rfl⟩ | ⟨hs, _⟩ | ⟨_, rfl⟩
    · exact absurd hidx (by simp [toEntry])
    · exact hs
    · rw [fiveGen_layout] at hlay
      exact absurd hlay (by decide)
  · intro hs
    exact ⟨stereoGen (s0 :: rest),
      (mem_planGroup_cons s0 rest _).mpr (Or.inr (Or.inl ⟨hs, rfl⟩)), rfl, rfl⟩
  · rintro ⟨e, he, hidx, hlay⟩
    rcases (mem_planGroup_cons s0 rest e).mp he with ⟨u, _, rfl⟩ | ⟨_, rfl⟩ | ⟨hf, _⟩
    · exact absurd hidx (by simp [toEntry])
    · rw [stereoGen_layout] at hlay
      exact absurd hlay (by decide)
    · exact hf
  · intro hf
    exact ⟨fiveGen s0,
      (mem_planGroup_cons s0 rest _).mpr (Or.inr (Or.inr ⟨hf, rfl⟩)), rfl, rfl⟩
  · intro e he hidx hlay
    rcases (mem_planGroup_cons s0 rest e).mp he with ⟨u, _, rfl⟩ | ⟨_, rfl⟩ | ⟨_, rfl⟩
    · exact absurd hidx (by simp [toEntry])
    · constructor
      · show ((((s0 :: rest).map (updateStream (s0 :: rest))).filter
            (fun t => (downmix_layouts "stereo").contains t.layout)).head?).map
              (fun t => t.index) = _
        rw [List.filter_map]
        have hcong : (s0 :: rest).filter
            ((fun t => (downmix_layouts "stereo").contains t.layout) ∘
              updateStream (s0 :: rest)) =
            (s0 :: rest).filter (fun t => (downmix_layouts "stereo").contains t.layout) := by
          apply List.filter_congr
          intro t _
          simp only [Function.comp_apply, (updateStream_proj (s0 :: rest) t).2.1]
        rw [hcong, List.head?_map, Option.map_map]
        cases hh : ((s0 :: rest).filter
            (fun t => (downmix_layouts "stereo").contains t.layout)).head? with
        | none => simp
        | some b => simp [Function.comp, (updateStream_proj (s0 :: rest) b).1]
      · intro b hb t ht hPt
        have hpw := List.Pairwise.filter
          (fun t => (downmix_layouts "stereo").contains t.layout) hsorted
        cases hf2 : (s0 :: rest).filter
            (fun t => (downmix_layouts "stereo").contains t.layout) with
        | nil => rw [hf2] at hb; cases hb
        | cons b2 ts =>
          rw [hf2] at hb
          have hbb : b2 = b := by simpa using hb
          subst hbb
          rw [hf2] at hpw
          obtain ⟨hall, _⟩ := List.pairwise_cons.mp hpw
          have htf : t ∈ (s0 :: rest).filter
              (fun t => (downmix_layouts "stereo").contains t.layout) :=
            List.mem_filter.mpr ⟨ht, hPt⟩
          rw [hf2] at htf
          rcases List.mem_cons.mp htf with rfl | hts
          · exact le_refl _
          · exact hall t hts
    · rw [fiveGen_layout] at hlay
      exact absurd hlay (by decide)

/-- Witness for C5 on the concrete group `c5group` ("5.1" + "mono", no
stereo track): the plan contains a synthetic stereo entry, and the
group indeed has no stereo-compatible track. -/
theorem C5_generation_iff_witness :
    (∃ e ∈ planGroup c5group, e.index = none ∧ e.layout = "stereo") ∧
    audio_lang_has_stereo c5group = false ∧
    (∃ e ∈ planGroup c5group, e.index = none ∧ e.layout = "5.1") = False := by
  have h := C5_generation_iff c5group (by decide) (by decide)
  refine ⟨h.1.mpr (by decide), by decide, ?_⟩
  simp only [eq_iff_iff, iff_false]
  intro hex
  have h5 := h.2.1.mp hex
  exact absurd h5 (by decide)

/-- An audio entry whose chosen source differs from its own index and
whose (target layout, source layout) pair no rule covers makes the
per-entry processing fail, whatever the output counter is. -/
theorem audioEntryArgs_none {g : List AudioEntry} {e fs : AudioEntry} {fi : Nat}
    (h1 : e.from_index = some fi) (h2 : e.index ≠ some fi)
    (h3 : g.find? (fun x => x.index == some fi) = some fs)
    (h4 : ruleFor e.layout fs.layout = none) :
    ∀ n, audioEntryArgs g e n = none := by
  intro n
  unfold audioEntryArgs
  rw [h1]
  dsimp only
  rw [if_neg h2, h3]
  dsimp only
  rw [h4]

/-- A failing entry makes its whole language loop fail. -/
theorem audioLangArgs_none {g : List AudioEntry} {e : AudioEntry}
    (he : ∀ n, audioEntryArgs g e n = none) :
    ∀ (l : List AudioEntry), e ∈ l → ∀ n, audioLangArgs g l n = none := by
  intro l
  induction l with
  | nil => intro h; cases h
  | cons hd tl ih =>
    intro hmem n
    rcases List.mem_cons.mp hmem with rfl | hmem2
    · unfold audioLangArgs
      rw [he n]
    · unfold audioLangArgs
      cases h : audioEntryArgs g hd n with
      | none => rfl
      | some p =>
        obtain ⟨as1, n1⟩ := p
        dsimp only
        rw [ih hmem2 n1]

/-- A failing language group makes the whole audio loop fail. -/
theorem audioAllArgs_none {g : List AudioEntry} {lang : Option String}
    (hg : ∀ n, audioLangArgs g g n = none) :
    ∀ (l : List (Option String × List AudioEntry)), (lang, g) ∈ l →
      ∀ n, audioAllArgs l n = none := by
  intro l
  induction l with
  | nil => intro h; cases h
  | cons hd tl ih =>
    intro hmem n
    rcases List.mem_cons.mp hmem with heq | hmem2
    · subst heq
      unfold audioAllArgs
      rw [hg n]
    · cases hd with
      | mk k q =>
        unfold audioAllArgs
        cases h : audioLangArgs q q n with
        | none => rfl
        | some p =>
          obtain ⟨as1, n1⟩ := p
          dsimp only
          rw [ih hmem2 n1]

/-- Claim C8: if any audio entry of the planned catalog has a chosen
source (`from_index`) different from its own input index, the chosen
source is present in its language group, and no compatibility rule for
the entry's target layout covers that source's layout, then
`ff_get_command_args` fails (the `StopIteration`/`KeyError` of the rule
lookup escapes) instead of silently skipping the entry, so no command
string is produced to launch a process with. -/
theorem C8_unresolved_downmix (streams : AllStreamsWithGenerables)
    (lang : Option String) (g : List AudioEntry) (e fs : AudioEntry) (fi : Nat)
    (hmem : (lang, g) ∈ streams.audio) (he : e ∈ g)
    (h1 : e.from_index = some fi) (h2 : e.index ≠ some fi)
    (h3 : g.find? (fun x => x.index == some fi) = some fs)
    (h4 : ruleFor e.layout fs.layout = none) :
    ff_get_args streams = none ∧ ff_get_command_args streams = none := by
  have hentry := audioEntryArgs_none h1 h2 h3 h4
  have hlang := audioLangArgs_none hentry g he
  have hall := audioAllArgs_none hlang streams.audio hmem 0
  constructor
  · unfold ff_get_args
    rw [hall]
  · unfold ff_get_command_args ff_get_args
    rw [hall]
    rfl

/-- Witness for C8 on the concrete catalog `c8cat`: the stereo entry's
chosen source is the mono track (index 2), no rule downmixes mono to
stereo, and command synthesis indeed fails. -/
theorem C8_unresolved_downmix_witness :
    ff_get_args c8cat = none ∧ ff_get_command_args c8cat = none := by
  refine C8_unresolved_downmix c8cat (some "eng")
    [{ index := some 1, from_index := some 2, from_compatible := none,
       layout := "stereo", title := some "Stereo" },
     { index := some 2, from_index := some 2, from_compatible := none,
       layout := "mono", title := some "Mono" }]
    { index := some 1, from_index := some 2, from_compatible := none,
      layout := "stereo", title := some "Stereo" }
    { index := some 2, from_index := some 2, from_compatible := none,
      layout := "mono", title := some "Mono" }
    2 (by decide) (by decide) (by decide) (by decide) (by decide) (by rfl)

/-- Claim C2, amended: when the audio loop succeeds, the synthesized
argument list maps every subtitle stream with a `mov_text` codec (not
a pass-through copy) and every "other" stream with a copy codec, the
output index counter continuing from the video count plus the emitted
audio count, subtitles before others. -/
theorem C2_subtitle_other_mappings (c : AllStreamsWithGenerables) (A : List String)
    (ac : Nat) (h : audioAllArgs c.audio 0 = some (A, ac)) :
    ∃ L, ff_get_args c = some L ∧
      (∀ k s, c.subtitle[k]? = some s →
        ("-map 0:" ++ toString s.index ++ " -c:" ++ toString (c.video.length + ac + k) ++
          " mov_text") ∈ L) ∧
      (∀ k s, c.other[k]? = some s →
        ("-map 0:" ++ toString s.index ++ " -c:" ++
          toString (c.video.length + ac + c.subtitle.length + k) ++ " copy") ∈ L) := by
  have hL : ff_get_args c = some (
      ["-strict -2", "-global_quality:a 0"]
      ++ c.video.enum.map
          (fun p => "-map 0:" ++ toString p.2.index ++ " -c:v:" ++ toString p.1 ++ " copy")
      ++ A
      ++ c.subtitle.enum.map
          (fun p => "-map 0:" ++ toString p.2.index ++ " -c:" ++
            toString (c.video.length + ac + p.1) ++ " mov_text")
      ++ c.other.enum.map
          (fun p => "-map 0:" ++ toString p.2.index ++ " -c:" ++
            toString (c.video.length + ac + c.subtitle.length + p.1) ++ " copy")) := by
    unfold ff_get_args
    rw [h]
  refine ⟨_, hL, ?_, ?_⟩
  · intro k s hk
    have hmem : (k, s) ∈ c.subtitle.enum := List.mk_mem_enum_iff_getElem?.mpr hk
    have hmem2 := List.mem_map_of_mem
      (fun p : Nat × IndexedStream => "-map 0:" ++ toString p.2.index ++ " -c:" ++
        toString (c.video.length + ac + p.1) ++ " mov_text") hmem
    simp only [List.mem_append]
    exact Or.inl (Or.inr hmem2)
  · intro k s hk
    have hmem : (k, s) ∈ c.other.enum := List.mk_mem_enum_iff_getElem?.mpr hk
    have hmem2 := List.mem_map_of_mem
      (fun p : Nat × IndexedStream => "-map 0:" ++ toString p.2.index ++ " -c:" ++
        toString (c.video.length + ac + c.subtitle.length + p.1) ++ " copy") hmem
    simp only [List.mem_append]
    exact Or.inr hmem2

/-- Witness for C2 (amended) on `c2cat`: its audio loop emits one copy
mapping, and the subtitle and other streams get the `mov_text` and
copy mappings at output indices 2 and 3. -/
theorem C2_subtitle_other_mappings_witness :
    ∃ L, ff_get_args c2cat = some L ∧
      "-map 0:2 -c:2 mov_text" ∈ L ∧ "-map 0:3 -c:3 copy" ∈ L := by
  obtain ⟨L, h1, h2, h3⟩ :=
    C2_subtitle_other_mappings c2cat ["-map 0:1 -c:a:0 copy"] 1 (by decide)
  refine ⟨L, h1, ?_, ?_⟩
  · exact h2 0 { index := 2 } (by decide)
  · exact h3 0 { index := 3 } (by decide)
